import Mathlib

/-!
Shallow embedding of the route-planning engine of the PennApps-2025-hosting
backend (src/backend/app.py and src/backend/combine_graph_shade.py), together
with proofs about its weight model, nearest-node resolution, shade-statistics
aggregation and the offline per-hour shade-attribute merge.

Modelling conventions:
* Python floats are modelled as `ℚ`.
* A networkx node is its coordinate key `(lon, lat)`.
* A networkx edge-attribute dict is the structure `EdgeAttrs`; the
  string-interpolated per-hour keys `shade_fraction_{h}`, `shade_length_{h}`,
  `shade_samples_{h}`, `is_shaded_{h}` become functions `ℕ → Option _`
  (`none` = key absent), and `dict.get(k, d)` becomes `Option.getD`.
* External library calls are abstracted: `pyproj`'s `geod.inv` becomes an
  arbitrary distance function argument, and `networkx`'s `shortest_path` /
  `shortest_path_length` become oracle function arguments; where a claim
  needs a property of the library (e.g. that the returned length is the
  weight of the returned path) it is a hypothesis of the theorem.
-/

/-- A graph node: the coordinate pair `(lon, lat)`, exactly the tuple key
used by the pickled networkx graph in `app.py`. -/
abbrev Node : Type := ℚ × ℚ

/-- Shallow embedding of a networkx edge-attribute dict as used by the
backend: the optional base `weight` plus the four hour-keyed shade attribute
families.  `none` models an absent dict key. -/
structure EdgeAttrs where
  weight : Option ℚ
  shade_fraction : ℕ → Option ℚ
  shade_length : ℕ → Option ℚ
  shade_samples : ℕ → Option ℕ
  is_shaded : ℕ → Option Bool
  shade_aware_weight : Option ℚ := none

/-- An edge of the undirected graph: the two endpoint nodes and the
attribute dict. -/
abbrev Edge : Type := Node × Node × EdgeAttrs

/-- Graph-level metadata dict `G.graph` as touched by
`combine_graph_shade.update_graph_metadata` (timestamps are abstracted to
naturals). -/
structure GraphMeta where
  shade_analysis_hours : Option (List ℕ) := none
  shade_analysis_added : Option Bool := none
  shade_enhanced_at : Option ℕ := none
  shade_last_enhanced_at : Option ℕ := none
  shade_analysis_added_at : ℕ → Option ℕ := fun _ => none

/-- The in-memory graph: node list, edge list (edge ids `edge_{i}` are list
positions, matching the `enumerate` loops in the sources) and metadata. -/
structure Graph where
  nodes : List Node
  edges : List Edge
  meta : GraphMeta := {}

/-- Undirected edge lookup: models `G.has_edge(a, b)` / `G[a][b]` of a
networkx `Graph`, which matches an edge in either orientation.  Returns the
attribute dict of the first matching edge. -/
def findEdge (es : List Edge) (a b : Node) : Option EdgeAttrs :=
  (es.find? fun e =>
    (decide (e.1 = a) && decide (e.2.1 = b)) ||
    (decide (e.1 = b) && decide (e.2.1 = a))).map (fun e => e.2.2)

/-- Night-time test from `app.py` line 287: `req.time <= 6 or req.time >= 19`. -/
def is_night_hour (t : ℕ) : Bool :=
  t ≤ 6 || 19 ≤ t

/-- Embedding of `calculate_shade_aware_weight` (app.py lines 264-277):
`base_weight = edge_attrs.get('weight', 0)`; at night the base weight is
returned unchanged; in daylight `shade_length` is looked up under the
hour-specific key with fallback to the hour-9 key and default `0`, and the
result is `base_weight + ((base_weight - shade_length) * shade_penalty)`. -/
def calculate_shade_aware_weight (edge_attrs : EdgeAttrs) (shade_penalty : ℚ)
    (is_daylight : Bool) (hour : ℕ) : ℚ :=
  let base_weight := edge_attrs.weight.getD 0
  if !is_daylight then
    base_weight
  else
    let shade_length :=
      (edge_attrs.shade_length hour).getD ((edge_attrs.shade_length 9).getD 0)
    base_weight + ((base_weight - shade_length) * shade_penalty)

/-- The effective shade length the daylight branch of the weight model reads:
hour-specific value if the key is present, else the hour-9 value, else 0.
This is also the lookup performed by the shade-statistics loops
(app.py line 362). -/
def effectiveShadeLength (edge_attrs : EdgeAttrs) (hour : ℕ) : ℚ :=
  (edge_attrs.shade_length hour).getD ((edge_attrs.shade_length 9).getD 0)

/-- Base weight read through `edge_attrs.get('weight', 0)`. -/
def baseWeight (edge_attrs : EdgeAttrs) : ℚ :=
  edge_attrs.weight.getD 0

/-- Spec-side daylight weight formula, written from the spec's words
(§4.3): `weight = base_weight + (base_weight − shade_length) × p` where
`shade_length` is the hour-H value if present, else the hour-9 value if
present, else 0. -/
def specDaylightWeight (edge_attrs : EdgeAttrs) (p : ℚ) (hour : ℕ) : ℚ :=
  let shade_length : ℚ :=
    match edge_attrs.shade_length hour with
    | some s => s
    | none =>
      match edge_attrs.shade_length 9 with
      | some s => s
      | none => 0
  baseWeight edge_attrs + (baseWeight edge_attrs - shade_length) * p

/-- Helper: in daylight the computed weight is the base weight plus the
penalty term over the effective shade length. -/
lemma calc_weight_daylight (a : EdgeAttrs) (p : ℚ) (hour : ℕ) :
    calculate_shade_aware_weight a p true hour =
      baseWeight a + (baseWeight a - effectiveShadeLength a hour) * p := by
  simp [calculate_shade_aware_weight, baseWeight, effectiveShadeLength]

/-- Helper: the daylight weight is at least the base weight whenever the
effective shade length does not exceed the base weight and the penalty is
non-negative. -/
lemma calc_weight_ge_base (a : EdgeAttrs) (p : ℚ) (hour : ℕ)
    (hs : effectiveShadeLength a hour ≤ baseWeight a) (hp : 0 ≤ p) :
    baseWeight a ≤ calculate_shade_aware_weight a p true hour := by
  rw [calc_weight_daylight]
  nlinarith [mul_nonneg (sub_nonneg.mpr hs) hp]

/-- C1: for every edge-attribute dict, every penalty and every daylight hour
H (7 ≤ H ≤ 18, so that the night test of app.py line 287 is false and the
caller passes `is_daylight = True`), the weight returned by
`calculate_shade_aware_weight` equals
`base_weight + (base_weight − shade_length) × p` with `shade_length` the
hour-H shade length if present, else the hour-9 value if present, else 0. -/
theorem shade_weight_formula_daylight (a : EdgeAttrs) (p : ℚ) (H : ℕ)
    (h7 : 7 ≤ H) (h18 : H ≤ 18) :
    calculate_shade_aware_weight a p (!is_night_hour H) H =
      specDaylightWeight a p H := by
  have hnight : is_night_hour H = false := by
    simp only [is_night_hour, Bool.or_eq_false_iff, decide_eq_false_iff_not]
    omega
  rw [hnight]
  simp only [calculate_shade_aware_weight, specDaylightWeight, baseWeight,
    Bool.not_false, Bool.not_true, if_false]
  cases hH : a.shade_length H with
  | none =>
    cases h9 : a.shade_length 9 with
    | none => simp [hH, h9]
    | some s => simp [hH, h9]
  | some s => simp [hH]

/-- Witness for C1: the spec's own example edge (base weight 10, hour-9
shade length 10, penalty 1) at hour 9 keeps weight 10. -/
theorem shade_weight_formula_daylight_witness :
    (7 ≤ 9 ∧ 9 ≤ 18) ∧
      calculate_shade_aware_weight
        { weight := some 10
          shade_fraction := fun _ => none
          shade_length := fun h => if h = 9 then some 10 else none
          shade_samples := fun _ => none
          is_shaded := fun _ => none } 1 (!is_night_hour 9) 9 =
        specDaylightWeight
          { weight := some 10
            shade_fraction := fun _ => none
            shade_length := fun h => if h = 9 then some 10 else none
            shade_samples := fun _ => none
            is_shaded := fun _ => none } 1 9 :=
  ⟨⟨by decide, by decide⟩, shade_weight_formula_daylight _ 1 9 (by decide) (by decide)⟩

/-- Weight reader used by the networkx Dijkstra when called with
`weight='weight'`: the attribute value with networkx's default `1` for a
missing key. -/
def nxGetWeight (a : EdgeAttrs) : ℚ :=
  a.weight.getD 1

/-- Weight reader used by the networkx Dijkstra when called with
`weight='shade_aware_weight'`. -/
def nxGetShadeAware (a : EdgeAttrs) : ℚ :=
  a.shade_aware_weight.getD 1

/-- One step of the per-request weight update loop (app.py lines 332-334):
store the daylight shade-aware weight under the `shade_aware_weight` key of
the edge's attribute dict. -/
def setShadeAware (p : ℚ) (hour : ℕ) (attrs : EdgeAttrs) : EdgeAttrs :=
  { attrs with
    shade_aware_weight := some (calculate_shade_aware_weight attrs p true hour) }

/-- The ephemeral per-request view built by the daylight branch of
`shortest_path_shade_aware` (app.py lines 327-334): a copy of the graph in
which every edge additionally carries `shade_aware_weight` (the code passes
`is_daylight = True`, having already excluded night hours). -/
def shadeView (g : Graph) (p : ℚ) (hour : ℕ) : Graph :=
  { g with edges := g.edges.map fun e => (e.1, e.2.1, setShadeAware p hour e.2.2) }

/-- C2: if every edge of the graph has non-negative base weight and an
effective shade length within `[0, base_weight]`, and the shade penalty is
non-negative, then every edge of the per-request view carries a
non-negative `shade_aware_weight` — the value the shade-aware
shortest-path search reads — so the WeightModel upholds the search
algorithm's non-negative-weight precondition. -/
theorem shade_view_weights_nonneg (g : Graph) (p : ℚ) (hour : ℕ)
    (hw : ∀ e ∈ g.edges, 0 ≤ baseWeight e.2.2)
    (hs : ∀ e ∈ g.edges, 0 ≤ effectiveShadeLength e.2.2 hour ∧
      effectiveShadeLength e.2.2 hour ≤ baseWeight e.2.2)
    (hp : 0 ≤ p) :
    ∀ e ∈ (shadeView g p hour).edges, 0 ≤ nxGetShadeAware e.2.2 := by
  intro e he
  rcases List.mem_map.mp he with ⟨e₀, he₀, rfl⟩
  have hbase := hw e₀ he₀
  have hshade := (hs e₀ he₀).2
  have hge := calc_weight_ge_base e₀.2.2 p hour hshade hp
  simp only [nxGetShadeAware, setShadeAware, Option.getD_some]
  linarith

/-- An example edge-attribute dict: base weight 10, hour-9 shade length 10. -/
def exAttrsShaded : EdgeAttrs :=
  { weight := some 10
    shade_fraction := fun h => if h = 9 then some 1 else none
    shade_length := fun h => if h = 9 then some 10 else none
    shade_samples := fun h => if h = 9 then some 5 else none
    is_shaded := fun h => if h = 9 then some true else none }

/-- An example one-edge graph over two nodes. -/
def exGraph : Graph :=
  { nodes := [(0, 0), (0, 1)]
    edges := [((0, 0), (0, 1), exAttrsShaded)] }

/-- Witness for C2: on the example one-edge graph with penalty 2 at hour 9,
the hypotheses hold and the view's single edge carries a non-negative
shade-aware weight. -/
theorem shade_view_weights_nonneg_witness :
    0 ≤ nxGetShadeAware (setShadeAware 2 9 exAttrsShaded) :=
  shade_view_weights_nonneg exGraph 2 9
    (by intro e he; fin_cases he; simp [baseWeight, exAttrsShaded])
    (by
      intro e he; fin_cases he
      constructor
      · simp [effectiveShadeLength, exAttrsShaded]
      · simp [effectiveShadeLength, baseWeight, exAttrsShaded])
    (by norm_num)
    ((0, 0), (0, 1), setShadeAware 2 9 exAttrsShaded)
    (by simp [shadeView, exGraph])

/-- C8 counterexample: the claimed phenomenon is impossible — there is no
edge-attribute dict, penalty `p > 1` and hour for which the effective shade
length is at most the base weight and yet the daylight shade-aware weight
is strictly below the base weight. -/
theorem no_daylight_weight_below_base :
    ¬ ∃ (a : EdgeAttrs) (p : ℚ) (H : ℕ),
        effectiveShadeLength a H ≤ baseWeight a ∧ 1 < p ∧
        calculate_shade_aware_weight a p true H < baseWeight a := by
  rintro ⟨a, p, H, hs, hp, hlt⟩
  have := calc_weight_ge_base a p H hs (by linarith)
  linarith

/-- C8 amended: for every edge whose effective shade length is at most its
base weight and every shade penalty `p ≥ 0` (in particular every `p > 1`),
the daylight shade-aware weight is at least the base weight; it equals the
base weight exactly when the edge is fully shaded or `p = 0`. -/
theorem daylight_weight_ge_base (a : EdgeAttrs) (p : ℚ) (H : ℕ)
    (hs : effectiveShadeLength a H ≤ baseWeight a) (hp : 0 ≤ p) :
    baseWeight a ≤ calculate_shade_aware_weight a p true H ∧
      (calculate_shade_aware_weight a p true H = baseWeight a ↔
        (baseWeight a - effectiveShadeLength a H) * p = 0) := by
  refine ⟨calc_weight_ge_base a p H hs hp, ?_⟩
  rw [calc_weight_daylight]
  constructor
  · intro h; linarith
  · intro h; linarith

/-- Witness for C8's amended claim: the spec's fully shaded example edge
(base weight 10, hour-9 shade length 10) with `p = 2 > 1` has shade-aware
weight exactly the base weight 10, not below it. -/
theorem daylight_weight_ge_base_witness :
    baseWeight exAttrsShaded ≤ calculate_shade_aware_weight exAttrsShaded 2 true 9 ∧
      (calculate_shade_aware_weight exAttrsShaded 2 true 9 = baseWeight exAttrsShaded ↔
        (baseWeight exAttrsShaded - effectiveShadeLength exAttrsShaded 9) * 2 = 0) :=
  daylight_weight_ge_base exAttrsShaded 2 9
    (by simp [effectiveShadeLength, baseWeight, exAttrsShaded])
    (by norm_num)

/-- Type of the external geodesic distance function `geod.inv` of pyproj:
`(lon1, lat1, lon2, lat2) ↦ distance` (only component `[2]`, the distance in
meters, is used by the backend).  It is kept abstract: the claims about
nearest-node resolution hold for every distance function. -/
abbrev DistFun : Type := ℚ → ℚ → ℚ → ℚ → ℚ

/-- Distance from the query point `(lat, lon)` to a node, in the exact
argument order of app.py line 87: `geod.inv(lon, lat, node_lon, node_lat)`. -/
def nodeDist (dist : DistFun) (lat lon : ℚ) (n : Node) : ℚ :=
  dist lon lat n.1 n.2

/-- One iteration of the nearest-node scan (app.py lines 84-90).  The
accumulator `none` models the initial state `min_dist = inf`,
`nearest_node = None`; a first node always beats infinity, and afterwards a
node replaces the incumbent only on strictly smaller distance. -/
def nearestStep (dist : DistFun) (lat lon : ℚ) (acc : Option (Node × ℚ))
    (node : Node) : Option (Node × ℚ) :=
  let d := nodeDist dist lat lon node
  match acc with
  | none => some (node, d)
  | some (bn, bd) => if d < bd then some (node, d) else some (bn, bd)

/-- Embedding of `find_nearest_node` (app.py lines 76-92): linear scan over
the node list keeping the first strict minimizer of the geodesic distance;
returns `None` when there are no nodes (the loop never runs). -/
def find_nearest_node (dist : DistFun) (g : Graph) (lat lon : ℚ) : Option Node :=
  (g.nodes.foldl (nearestStep dist lat lon) none).map (fun x => x.1)

/-- Helper: characterization of the scan's fold from a concrete incumbent.
The result is the first element of `bn :: l` that is strictly closer than
everything before it and at least as close as everything after it. -/
lemma nearest_fold_spec (dist : DistFun) (lat lon : ℚ) (l : List Node) :
    ∀ bn : Node,
      ∃ n l1 l2,
        l.foldl (nearestStep dist lat lon) (some (bn, nodeDist dist lat lon bn)) =
          some (n, nodeDist dist lat lon n) ∧
        bn :: l = l1 ++ n :: l2 ∧
        (∀ m ∈ l1, nodeDist dist lat lon n < nodeDist dist lat lon m) ∧
        (∀ m ∈ l2, nodeDist dist lat lon n ≤ nodeDist dist lat lon m) := by
  induction l with
  | nil =>
    intro bn
    exact ⟨bn, [], [], rfl, rfl, by simp, by simp⟩
  | cons x xs ih =>
    intro bn
    by_cases hlt : nodeDist dist lat lon x < nodeDist dist lat lon bn
    · obtain ⟨n, l1, l2, hfold, hdec, h1, h2⟩ := ih x
      refine ⟨n, bn :: l1, l2, ?_, ?_, ?_, h2⟩
      · simpa [List.foldl_cons, nearestStep, hlt] using hfold
      · simpa using congrArg (List.cons bn) hdec
      · intro m hm
        have hnx : nodeDist dist lat lon n ≤ nodeDist dist lat lon x := by
          cases l1 with
          | nil =>
            have hxn : x = n := by
              have h := hdec
              simp only [List.nil_append, List.cons.injEq] at h
              rw [h.1]
            rw [hxn]
          | cons y t =>
            have h := hdec
            simp only [List.cons_append, List.cons.injEq] at h
            have hx1 : x ∈ y :: t := by
              rw [h.1]; exact List.mem_cons_self y t
            exact le_of_lt (h1 x hx1)
        rcases List.mem_cons.mp hm with rfl | hm
        · exact lt_of_le_of_lt hnx hlt
        · exact h1 m hm
    · obtain ⟨n, l1, l2, hfold, hdec, h1, h2⟩ := ih bn
      have hstep :
          (x :: xs).foldl (nearestStep dist lat lon)
              (some (bn, nodeDist dist lat lon bn)) =
            xs.foldl (nearestStep dist lat lon)
              (some (bn, nodeDist dist lat lon bn)) := by
        simp [List.foldl_cons, nearestStep, hlt]
      cases l1 with
      | nil =>
        have hn : bn = n ∧ xs = l2 := by
          have h := hdec
          simp only [List.nil_append, List.cons.injEq] at h
          exact h
        refine ⟨n, [], x :: xs, by rw [hstep]; exact hfold, by simp [hn.1], by simp, ?_⟩
        intro m hm
        rcases List.mem_cons.mp hm with rfl | hm
        · rw [← hn.1]; exact le_of_not_lt hlt
        · exact h2 m (by rw [← hn.2]; exact hm)
      | cons y t =>
        have hy : bn = y ∧ xs = t ++ n :: l2 := by
          have h := hdec
          simp only [List.cons_append, List.cons.injEq] at h
          exact h
        refine ⟨n, bn :: x :: t, l2, by rw [hstep]; exact hfold, ?_, ?_, h2⟩
        · simp [hy.2]
        · intro m hm
          have hbmem : bn ∈ y :: t := by
            rw [hy.1]; exact List.mem_cons_self y t
          have hnbn : nodeDist dist lat lon n < nodeDist dist lat lon bn := h1 bn hbmem
          rcases List.mem_cons.mp hm with rfl | hm
          · exact hnbn
          rcases List.mem_cons.mp hm with rfl | hm
          · exact lt_of_lt_of_le hnbn (le_of_not_lt hlt)
          · exact h1 m (List.mem_cons_of_mem y hm)

/-- C7: on a graph with no nodes the scan returns `none` (resolution
failure); on a graph with at least one node it returns the node that
minimizes the given geodesic distance to the query point, and among equal
minimizers the first one in the fixed iteration order (every node strictly
earlier in the list is strictly farther).  Being a pure function of its
arguments, repeated identical calls return the identical node. -/
theorem find_nearest_node_spec (dist : DistFun) (g : Graph) (lat lon : ℚ) :
    (g.nodes = [] → find_nearest_node dist g lat lon = none) ∧
    (g.nodes ≠ [] →
      ∃ n l1 l2,
        find_nearest_node dist g lat lon = some n ∧
        g.nodes = l1 ++ n :: l2 ∧
        (∀ m ∈ l1, nodeDist dist lat lon n < nodeDist dist lat lon m) ∧
        (∀ m ∈ g.nodes, nodeDist dist lat lon n ≤ nodeDist dist lat lon m)) := by
  constructor
  · intro h
    simp [find_nearest_node, h]
  · intro h
    cases hg : g.nodes with
    | nil => exact absurd hg h
    | cons x xs =>
      obtain ⟨n, l1, l2, hfold, hdec, h1, h2⟩ := nearest_fold_spec dist lat lon xs x
      refine ⟨n, l1, l2, ?_, hg ▸ hdec, h1, ?_⟩
      · simp [find_nearest_node, hg, List.foldl_cons, nearestStep, hfold]
      · intro m hm
        rw [hdec] at hm
        rcases List.mem_append.mp hm with hm | hm
        · exact le_of_lt (h1 m hm)
        · rcases List.mem_cons.mp hm with rfl | hm
          · exact le_refl _
          · exact h2 m hm

/-- A concrete distance function used only to witness the nearest-node
theorem (squared planar distance; the theorem holds for any `DistFun`). -/
def exDist : DistFun := fun lon lat nlon nlat =>
  (nlon - lon) * (nlon - lon) + (nlat - lat) * (nlat - lat)

/-- Witness for C7: on the two-node example graph with a concrete distance
function, the nonempty branch of the nearest-node specification applies. -/
theorem find_nearest_node_spec_witness :
    exGraph.nodes ≠ [] ∧
      ∃ n l1 l2,
        find_nearest_node exDist exGraph 0 0 = some n ∧
        exGraph.nodes = l1 ++ n :: l2 ∧
        (∀ m ∈ l1, nodeDist exDist 0 0 n < nodeDist exDist 0 0 m) ∧
        (∀ m ∈ exGraph.nodes, nodeDist exDist 0 0 n ≤ nodeDist exDist 0 0 m) :=
  ⟨by decide, (find_nearest_node_spec exDist exGraph 0 0).2 (by decide)⟩

/-- One edge's record of the shade-analysis input, as read by
`load_shade_analysis` (combine_graph_shade.py lines 44-51): `shadePct`,
`shaded`, `nSamples`. -/
structure ShadeInfo where
  shade_fraction : ℚ
  shaded : Bool
  samples : ℕ

/-- The shade-analysis input keyed by edge id: `sd i` is the record stored
under the key `edge_{i}`, `none` when that id is absent from the input. -/
abbrev ShadeData : Type := ℕ → Option ShadeInfo

/-- Per-edge step of the merge loop (combine_graph_shade.py lines 87-121):
an edge present in the analysis gets all four hour-H attributes written,
with `shade_length = shade_fraction × edge_weight`; an absent edge gets the
zero/false defaults only when its hour-H `shade_fraction` key is missing,
and is left completely untouched otherwise. -/
def mergeEdgeShade (hour : ℕ) (info : Option ShadeInfo) (attrs : EdgeAttrs) : EdgeAttrs :=
  match info with
  | some si =>
    let shade_length := si.shade_fraction * attrs.weight.getD 0
    { attrs with
      shade_fraction := fun h => if h = hour then some si.shade_fraction else attrs.shade_fraction h
      shade_length := fun h => if h = hour then some shade_length else attrs.shade_length h
      shade_samples := fun h => if h = hour then some si.samples else attrs.shade_samples h
      is_shaded := fun h => if h = hour then some si.shaded else attrs.is_shaded h }
  | none =>
    if (attrs.shade_fraction hour).isSome then attrs
    else
      { attrs with
        shade_fraction := fun h => if h = hour then some 0 else attrs.shade_fraction h
        shade_length := fun h => if h = hour then some 0 else attrs.shade_length h
        shade_samples := fun h => if h = hour then some 0 else attrs.shade_samples h
        is_shaded := fun h => if h = hour then some false else attrs.is_shaded h }

/-- The `for i, (node1, node2, edge_attrs) in enumerate(...)` merge loop:
edge ids are list positions starting at `i`. -/
def enhanceEdges (sd : ShadeData) (hour : ℕ) : ℕ → List Edge → List Edge
  | _, [] => []
  | i, e :: es => (e.1, e.2.1, mergeEdgeShade hour (sd i) e.2.2) :: enhanceEdges sd hour (i + 1) es

/-- The graph-wide availability probe for hour data (combine_graph_shade.py
lines 77-78 and app.py lines 304-311): sample one edge — the first of the
iteration — and test its `shade_fraction_{hour}` key. -/
def graphHasHourData (g : Graph) (hour : ℕ) : Bool :=
  match g.edges.head? with
  | some e => (e.2.2.shade_fraction hour).isSome
  | none => false

/-- Embedding of `enhance_graph_with_shade` (combine_graph_shade.py lines
60-129).  The interactive `input()` overwrite prompt is modelled by the
boolean `overwrite_confirmed`: when the sampled edge already carries hour
data and the confirmation is not given, the operation aborts and returns
the (copied) graph unchanged; otherwise every edge is merged. -/
def enhance_graph_with_shade (g : Graph) (sd : ShadeData) (hour : ℕ)
    (overwrite_confirmed : Bool) : Graph :=
  if graphHasHourData g hour && !overwrite_confirmed then g
  else { g with edges := enhanceEdges sd hour 0 g.edges }

/-- Insertion into a sorted list, used to model Python's `list.sort()`. -/
def insertSorted (x : ℕ) : List ℕ → List ℕ
  | [] => [x]
  | y :: ys => if x ≤ y then x :: y :: ys else y :: insertSorted x ys

/-- Ascending sort of the hour list, modelling `list.sort()`. -/
def sortHours : List ℕ → List ℕ
  | [] => []
  | x :: xs => insertSorted x (sortHours xs)

/-- Embedding of `update_graph_metadata` (combine_graph_shade.py lines
130-152): initialize the shade metadata when absent, add the hour to the
sorted hour list when new, and unconditionally refresh the
`shade_last_enhanced_at` and `shade_analysis_{hour}_added_at` timestamps
(the `datetime.now()` calls are abstracted to the parameter `now`). -/
def update_graph_metadata (g : Graph) (hour : ℕ) (now : ℕ) : Graph :=
  let m0 := g.meta
  let m1 :=
    if m0.shade_analysis_hours.isNone then
      { m0 with
        shade_analysis_hours := some []
        shade_analysis_added := some true
        shade_enhanced_at := some now }
    else m0
  let hours := m1.shade_analysis_hours.getD []
  let m2 :=
    if hour ∈ hours then m1
    else { m1 with shade_analysis_hours := some (sortHours (hours ++ [hour])) }
  { g with meta :=
    { m2 with
      shade_last_enhanced_at := some now
      shade_analysis_added_at :=
        fun h => if h = hour then some now else m2.shade_analysis_added_at h } }

/-- The offline merge pipeline of `combine_graph_shade.main` (lines
199-217, file I/O elided): enhance the edges, then update the metadata —
note that the metadata update runs whether or not the enhancement step
aborted. -/
def merge_shade_pipeline (g : Graph) (sd : ShadeData) (hour : ℕ)
    (overwrite_confirmed : Bool) (now : ℕ) : Graph :=
  update_graph_metadata (enhance_graph_with_shade g sd hour overwrite_confirmed) hour now

/-- Helper: position `j` of the merge loop started at id `i` is the input's
position-`j` edge merged with the record for id `i + j`. -/
lemma enhanceEdges_get? (sd : ShadeData) (hour : ℕ) :
    ∀ (es : List Edge) (i j : ℕ),
      (enhanceEdges sd hour i es).get? j =
        (es.get? j).map (fun e => (e.1, e.2.1, mergeEdgeShade hour (sd (i + j)) e.2.2)) := by
  intro es
  induction es with
  | nil => intro i j; simp [enhanceEdges]
  | cons e es ih =>
    intro i j
    cases j with
    | zero => simp [enhanceEdges]
    | succ j =>
      have harith : i + (j + 1) = (i + 1) + j := by omega
      simp only [enhanceEdges, List.get?_cons_succ, harith]
      exact ih (i + 1) j

/-- Helper: the record each edge carries after a non-aborted merge. -/
lemma enhance_edge_records_helper (g : Graph) (sd : ShadeData) (H : ℕ)
    (confirm : Bool)
    (hrun : graphHasHourData g H = false ∨ confirm = true) :
    ∀ i e, g.edges.get? i = some e →
      ∃ e', (enhance_graph_with_shade g sd H confirm).edges.get? i = some e' ∧
        e'.1 = e.1 ∧ e'.2.1 = e.2.1 ∧
        (∀ si, sd i = some si →
          e'.2.2.shade_fraction H = some si.shade_fraction ∧
          e'.2.2.shade_length H = some (si.shade_fraction * baseWeight e.2.2) ∧
          e'.2.2.shade_samples H = some si.samples ∧
          e'.2.2.is_shaded H = some si.shaded) ∧
        (sd i = none → (e.2.2.shade_fraction H).isSome = false →
          e'.2.2.shade_fraction H = some 0 ∧
          e'.2.2.shade_length H = some 0 ∧
          e'.2.2.shade_samples H = some 0 ∧
          e'.2.2.is_shaded H = some false) ∧
        (sd i = none → (e.2.2.shade_fraction H).isSome = true →
          e'.2.2 = e.2.2) := by
  intro i e he
  have hbr : enhance_graph_with_shade g sd H confirm =
      { g with edges := enhanceEdges sd H 0 g.edges } := by
    unfold enhance_graph_with_shade
    rcases hrun with h | h
    · simp [h]
    · simp [h]
  refine ⟨(e.1, e.2.1, mergeEdgeShade H (sd i) e.2.2), ?_, rfl, rfl, ?_, ?_, ?_⟩
  · rw [hbr]
    show (enhanceEdges sd H 0 g.edges).get? i = _
    rw [enhanceEdges_get? sd H g.edges 0 i, Nat.zero_add, he]
    rfl
  · intro si hsi
    simp [mergeEdgeShade, hsi, baseWeight]
  · intro hsd hfrac
    simp [mergeEdgeShade, hsd, hfrac]
  · intro hsd hfrac
    simp [mergeEdgeShade, hsd, hfrac]

/-- C4: for a merge that is not aborted by the overwrite guard, every edge
whose id is present in the analysis input ends up carrying the full hour-H
record with `shade_length = shade_fraction × base_weight` plus the input's
sample count and shaded flag, while every edge whose id is absent gets the
zero/false defaults exactly when it had no hour-H record before and is left
completely unchanged when it already had one. -/
theorem shade_merge_edge_records (g : Graph) (sd : ShadeData) (H : ℕ)
    (confirm : Bool)
    (hrun : graphHasHourData g H = false ∨ confirm = true) :
    ∀ i e, g.edges.get? i = some e →
      ∃ e', (enhance_graph_with_shade g sd H confirm).edges.get? i = some e' ∧
        e'.1 = e.1 ∧ e'.2.1 = e.2.1 ∧
        (∀ si, sd i = some si →
          e'.2.2.shade_fraction H = some si.shade_fraction ∧
          e'.2.2.shade_length H = some (si.shade_fraction * baseWeight e.2.2) ∧
          e'.2.2.shade_samples H = some si.samples ∧
          e'.2.2.is_shaded H = some si.shaded) ∧
        (sd i = none → (e.2.2.shade_fraction H).isSome = false →
          e'.2.2.shade_fraction H = some 0 ∧
          e'.2.2.shade_length H = some 0 ∧
          e'.2.2.shade_samples H = some 0 ∧
          e'.2.2.is_shaded H = some false) ∧
        (sd i = none → (e.2.2.shade_fraction H).isSome = true →
          e'.2.2 = e.2.2) :=
  enhance_edge_records_helper g sd H confirm hrun

/-- An edge-attribute dict with no shade keys at all. -/
def exAttrsBare : EdgeAttrs :=
  { weight := some 4
    shade_fraction := fun _ => none
    shade_length := fun _ => none
    shade_samples := fun _ => none
    is_shaded := fun _ => none }

/-- A two-edge graph without any hour-9 shade data. -/
def exGraphBare : Graph :=
  { nodes := [(0, 0), (0, 1), (1, 1)]
    edges := [((0, 0), (0, 1), exAttrsBare), ((0, 1), (1, 1), exAttrsBare)] }

/-- A shade-analysis input covering only edge id 0 (fraction 1/2, shaded,
3 samples). -/
def exShadeData : ShadeData := fun i =>
  if i = 0 then some { shade_fraction := 1/2, shaded := true, samples := 3 } else none

/-- Witness for C4: merging `exShadeData` at hour 9 into the bare two-edge
graph writes the computed record on edge 0 and the defaults on edge 1. -/
theorem shade_merge_edge_records_witness :
    (graphHasHourData exGraphBare 9 = false ∨ false = true) ∧
      (∃ e', (enhance_graph_with_shade exGraphBare exShadeData 9 false).edges.get? 0 =
          some e' ∧
        e'.1 = ((0 : ℚ), (0 : ℚ)) ∧ e'.2.1 = ((0 : ℚ), (1 : ℚ)) ∧
        e'.2.2.shade_fraction 9 = some (1/2) ∧
        e'.2.2.shade_length 9 = some (1/2 * baseWeight exAttrsBare) ∧
        e'.2.2.shade_samples 9 = some 3 ∧
        e'.2.2.is_shaded 9 = some true) := by
  constructor
  · left; decide
  · obtain ⟨e', h1, h2, h3, h4, -, -⟩ :=
      shade_merge_edge_records exGraphBare exShadeData 9 false (Or.inl (by decide))
        0 ((0, 0), (0, 1), exAttrsBare) rfl
    obtain ⟨hf, hl, hs, hb⟩ := h4 { shade_fraction := 1/2, shaded := true, samples := 3 } rfl
    exact ⟨e', h1, h2, h3, hf, hl, hs, hb⟩

/-- The example graph with hour-9 shade data on its edge and complete hour-9
metadata, recorded at time 0. -/
def exGraphMerged : Graph :=
  { nodes := [(0, 0), (0, 1)]
    edges := [((0, 0), (0, 1), exAttrsShaded)]
    meta :=
      { shade_analysis_hours := some [9]
        shade_analysis_added := some true
        shade_enhanced_at := some 0
        shade_last_enhanced_at := some 0
        shade_analysis_added_at := fun h => if h = 9 then some 0 else none } }

/-- C5 counterexample: running the merge pipeline for hour 9 on a graph
that already has hour-9 data, without the overwrite confirmation and at a
later time 1, does not leave every stored hour-9 value unchanged — the
hour-9 merge timestamp `shade_analysis_9_added_at` is rewritten from 0 to 1
because `main` updates the metadata even after the aborted enhancement. -/
theorem merge_without_confirm_changes_hour_metadata :
    graphHasHourData exGraphMerged 9 = true ∧
    9 ∈ (exGraphMerged.meta.shade_analysis_hours.getD []) ∧
    (merge_shade_pipeline exGraphMerged (fun _ => none) 9 false 1).meta.shade_analysis_added_at 9 ≠
      exGraphMerged.meta.shade_analysis_added_at 9 := by
  refine ⟨by decide, by decide, ?_⟩
  intro h
  have h0 : (merge_shade_pipeline exGraphMerged (fun _ => none) 9 false 1).meta.shade_analysis_added_at 9 =
      some 1 := rfl
  have h1 : exGraphMerged.meta.shade_analysis_added_at 9 = some 0 := rfl
  rw [h0, h1] at h
  exact Option.noConfusion h fun h' => Nat.noConfusion h'

/-- C5 amended: running the merge pipeline for an hour H whose data is
already present (the sampled edge carries it) without the overwrite
confirmation leaves every edge attribute unchanged and, when H is already
in the stored hour list, leaves that list unchanged — but the hour-H merge
timestamp is refreshed to the current time regardless; with the
confirmation, the hour-H values of every edge covered by the analysis input
are updated to the input's records. -/
theorem merge_overwrite_guard (g : Graph) (sd : ShadeData) (H : ℕ) (now : ℕ)
    (hhas : graphHasHourData g H = true) :
    ((merge_shade_pipeline g sd H false now).edges = g.edges ∧
      (H ∈ g.meta.shade_analysis_hours.getD [] →
        (merge_shade_pipeline g sd H false now).meta.shade_analysis_hours =
          g.meta.shade_analysis_hours) ∧
      (merge_shade_pipeline g sd H false now).meta.shade_analysis_added_at H = some now) ∧
    (∀ i e si, g.edges.get? i = some e → sd i = some si →
      ∃ e', (merge_shade_pipeline g sd H true now).edges.get? i = some e' ∧
        e'.2.2.shade_fraction H = some si.shade_fraction ∧
        e'.2.2.shade_length H = some (si.shade_fraction * baseWeight e.2.2) ∧
        e'.2.2.shade_samples H = some si.samples ∧
        e'.2.2.is_shaded H = some si.shaded) := by
  have habort : enhance_graph_with_shade g sd H false = g := by
    unfold enhance_graph_with_shade
    simp [hhas]
  refine ⟨⟨?_, ?_, ?_⟩, ?_⟩
  · simp [merge_shade_pipeline, habort, update_graph_metadata]
  · intro hmem
    simp only [merge_shade_pipeline, habort, update_graph_metadata]
    rcases hh : g.meta.shade_analysis_hours with _ | hs
    · rw [hh] at hmem
      simp at hmem
    · rw [hh] at hmem
      simp only [Option.getD_some] at hmem
      simp [hh, hmem]
  · simp [merge_shade_pipeline, habort, update_graph_metadata]
  · intro i e si he hsi
    obtain ⟨e', h1, -, -, h4, -, -⟩ :=
      enhance_edge_records_helper g sd H true (Or.inr rfl) i e he
    obtain ⟨hf, hl, hs, hb⟩ := h4 si hsi
    refine ⟨e', ?_, hf, hl, hs, hb⟩
    simpa [merge_shade_pipeline, update_graph_metadata] using h1

/-- Witness for C5's amended claim: instantiated on the example graph whose
hour-9 data and metadata were recorded at time 0, merged again at time 1. -/
theorem merge_overwrite_guard_witness :
    graphHasHourData exGraphMerged 9 = true ∧
      (((merge_shade_pipeline exGraphMerged exShadeData 9 false 1).edges =
          exGraphMerged.edges ∧
        (9 ∈ exGraphMerged.meta.shade_analysis_hours.getD [] →
          (merge_shade_pipeline exGraphMerged exShadeData 9 false 1).meta.shade_analysis_hours =
            exGraphMerged.meta.shade_analysis_hours) ∧
        (merge_shade_pipeline exGraphMerged exShadeData 9 false 1).meta.shade_analysis_added_at 9 =
          some 1) ∧
      (∀ i e si, exGraphMerged.edges.get? i = some e → exShadeData i = some si →
        ∃ e', (merge_shade_pipeline exGraphMerged exShadeData 9 true 1).edges.get? i = some e' ∧
          e'.2.2.shade_fraction 9 = some si.shade_fraction ∧
          e'.2.2.shade_length 9 = some (si.shade_fraction * baseWeight e.2.2) ∧
          e'.2.2.shade_samples 9 = some si.samples ∧
          e'.2.2.is_shaded 9 = some si.shaded)) :=
  ⟨by decide, merge_overwrite_guard exGraphMerged exShadeData 9 1 (by decide)⟩

/-- Round-half-to-even to an integer, the idealization over `ℚ` of Python's
built-in `round`. -/
def roundHalfEven (y : ℚ) : ℤ :=
  if y - ⌊y⌋ = 1/2 then (if 2 ∣ ⌊y⌋ then ⌊y⌋ else ⌊y⌋ + 1) else round y

/-- Python's `round(x, 1)`: round to the nearest multiple of `1/10`, ties to
even. -/
def pyRound1 (q : ℚ) : ℚ :=
  (roundHalfEven (q * 10) : ℚ) / 10

/-- Helper: half-even rounding lands between floor and ceiling. -/
lemma roundHalfEven_bounds (y : ℚ) :
    ⌊y⌋ ≤ roundHalfEven y ∧ roundHalfEven y ≤ ⌈y⌉ := by
  unfold roundHalfEven
  by_cases ht : y - ⌊y⌋ = 1/2
  · have hfl : (⌊y⌋ : ℚ) < y := by linarith
    have hlt : ⌊y⌋ < ⌈y⌉ := Int.lt_ceil.mpr hfl
    rw [if_pos ht]
    constructor
    · split <;> omega
    · split <;> omega
  · rw [if_neg ht, round_eq]
    constructor
    · exact Int.le_floor.mpr (by linarith [Int.floor_le y])
    · by_contra hc
      push_neg at hc
      have h1 : ⌈y⌉ + 1 ≤ ⌊y + 1/2⌋ := by omega
      have h2 : ((⌈y⌉ + 1 : ℤ) : ℚ) ≤ y + 1/2 := Int.le_floor.mp h1
      have h3 := Int.le_ceil y
      push_cast at h2
      linarith

/-- Helper: `pyRound1` preserves non-negativity. -/
lemma pyRound1_nonneg (q : ℚ) (hq : 0 ≤ q) : 0 ≤ pyRound1 q := by
  have h := (roundHalfEven_bounds (q * 10)).1
  have h0 : (0 : ℤ) ≤ ⌊q * 10⌋ := Int.le_floor.mpr (by push_cast; linarith)
  have hz : (0 : ℤ) ≤ roundHalfEven (q * 10) := le_trans h0 h
  have hq' : (0 : ℚ) ≤ (roundHalfEven (q * 10) : ℚ) := by exact_mod_cast hz
  unfold pyRound1
  positivity

/-- Helper: `pyRound1` preserves the upper bound 100. -/
lemma pyRound1_le_hundred (q : ℚ) (hq : q ≤ 100) : pyRound1 q ≤ 100 := by
  have h := (roundHalfEven_bounds (q * 10)).2
  have h0 : ⌈q * 10⌉ ≤ (1000 : ℤ) := Int.ceil_le.mpr (by push_cast; linarith)
  have hz : roundHalfEven (q * 10) ≤ (1000 : ℤ) := le_trans h h0
  have hq' : (roundHalfEven (q * 10) : ℚ) ≤ 1000 := by exact_mod_cast hz
  unfold pyRound1
  linarith

/-- The shaded flag of the statistics loops: hour-specific `is_shaded` with
hour-9 fallback and default `False` (app.py line 366). -/
def effectiveIsShaded (a : EdgeAttrs) (hour : ℕ) : Bool :=
  (a.is_shaded hour).getD ((a.is_shaded 9).getD false)

/-- The three accumulators of the per-path statistics loop. -/
structure PathStats where
  total_shade_length : ℚ
  total_path_length : ℚ
  shaded_segments : ℕ

/-- One iteration of the statistics loop (app.py lines 355-368, and the
hour-9 instance lines 218-231): a missing edge contributes nothing,
otherwise the base weight, the effective shade length and the shaded flag
are accumulated. -/
def statsStep (g : Graph) (hour : ℕ) (acc : PathStats) (pr : Node × Node) : PathStats :=
  match findEdge g.edges pr.1 pr.2 with
  | none => acc
  | some a =>
    { total_shade_length := acc.total_shade_length + effectiveShadeLength a hour
      total_path_length := acc.total_path_length + baseWeight a
      shaded_segments := acc.shaded_segments + if effectiveIsShaded a hour then 1 else 0 }

/-- The consecutive node pairs `(path_nodes[i], path_nodes[i+1])` visited by
`for i in range(len(path_nodes) - 1)`. -/
def consecutivePairs : List Node → List (Node × Node)
  | [] => []
  | [_] => []
  | a :: b :: rest => (a, b) :: consecutivePairs (b :: rest)

/-- The statistics of a node path at a given hour. -/
def pathStats (g : Graph) (hour : ℕ) (path : List Node) : PathStats :=
  (consecutivePairs path).foldl (statsStep g hour) ⟨0, 0, 0⟩

/-- The guarded percentage of app.py lines 370 and 245:
`total_shade_length / total_path_length * 100` when the path length is
positive, else `0`. -/
def shade_percentage (st : PathStats) : ℚ :=
  if 0 < st.total_path_length then st.total_shade_length / st.total_path_length * 100
  else 0

/-- Helper: the statistics fold keeps `0 ≤ total_shade ≤ total_path` as long
as every traversed edge's effective shade length lies in `[0, weight]`. -/
lemma statsFold_inv (g : Graph) (hour : ℕ) :
    ∀ prs : List (Node × Node),
      (∀ pr ∈ prs, ∀ a, findEdge g.edges pr.1 pr.2 = some a →
        0 ≤ effectiveShadeLength a hour ∧ effectiveShadeLength a hour ≤ baseWeight a) →
      ∀ acc : PathStats,
        0 ≤ acc.total_shade_length → acc.total_shade_length ≤ acc.total_path_length →
        0 ≤ (prs.foldl (statsStep g hour) acc).total_shade_length ∧
          (prs.foldl (statsStep g hour) acc).total_shade_length ≤
            (prs.foldl (statsStep g hour) acc).total_path_length := by
  intro prs
  induction prs with
  | nil => intro _ acc h0 h1; exact ⟨h0, h1⟩
  | cons pr prs ih =>
    intro hyp acc h0 h1
    have hyp' : ∀ pr' ∈ prs, ∀ a, findEdge g.edges pr'.1 pr'.2 = some a →
        0 ≤ effectiveShadeLength a hour ∧ effectiveShadeLength a hour ≤ baseWeight a :=
      fun pr' hm => hyp pr' (List.mem_cons_of_mem pr hm)
    rw [List.foldl_cons]
    cases hfe : findEdge g.edges pr.1 pr.2 with
    | none =>
      have hstep : statsStep g hour acc pr = acc := by simp [statsStep, hfe]
      rw [hstep]
      exact ih hyp' acc h0 h1
    | some a =>
      obtain ⟨ha0, ha1⟩ := hyp pr (List.mem_cons_self pr prs) a hfe
      have hw : 0 ≤ baseWeight a := le_trans ha0 ha1
      have hstep : statsStep g hour acc pr =
          { total_shade_length := acc.total_shade_length + effectiveShadeLength a hour
            total_path_length := acc.total_path_length + baseWeight a
            shaded_segments := acc.shaded_segments + if effectiveIsShaded a hour then 1 else 0 } := by
        simp [statsStep, hfe]
      rw [hstep]
      exact ih hyp' _ (by simp; linarith) (by simp; linarith)

/-- C9: for every node path whose every traversed edge has effective shade
length within `[0, weight]`, the computed shade percentage lies within
`[0, 100]` when the summed path length is positive, and is exactly `0` when
the summed path length is `0` — and both bounds survive the 1-decimal
rounding applied to the reported value. -/
theorem shade_percentage_bounds (g : Graph) (hour : ℕ) (path : List Node)
    (hyp : ∀ pr ∈ consecutivePairs path, ∀ a, findEdge g.edges pr.1 pr.2 = some a →
      0 ≤ effectiveShadeLength a hour ∧ effectiveShadeLength a hour ≤ baseWeight a) :
    (0 < (pathStats g hour path).total_path_length →
      0 ≤ shade_percentage (pathStats g hour path) ∧
        shade_percentage (pathStats g hour path) ≤ 100 ∧
        0 ≤ pyRound1 (shade_percentage (pathStats g hour path)) ∧
        pyRound1 (shade_percentage (pathStats g hour path)) ≤ 100) ∧
    ((pathStats g hour path).total_path_length = 0 →
      shade_percentage (pathStats g hour path) = 0) := by
  obtain ⟨h0, h1⟩ := statsFold_inv g hour (consecutivePairs path) hyp ⟨0, 0, 0⟩ le_rfl le_rfl
  have h0' : 0 ≤ (pathStats g hour path).total_shade_length := h0
  have h1' : (pathStats g hour path).total_shade_length ≤
      (pathStats g hour path).total_path_length := h1
  constructor
  · intro hpos
    have hle : shade_percentage (pathStats g hour path) ≤ 100 := by
      unfold shade_percentage
      rw [if_pos hpos]
      have : (pathStats g hour path).total_shade_length /
          (pathStats g hour path).total_path_length ≤ 1 :=
        (div_le_one hpos).mpr h1'
      linarith
    have hge : 0 ≤ shade_percentage (pathStats g hour path) := by
      unfold shade_percentage
      rw [if_pos hpos]
      have := div_nonneg h0' (le_of_lt hpos)
      linarith
    exact ⟨hge, hle, pyRound1_nonneg _ hge, pyRound1_le_hundred _ hle⟩
  · intro hzero
    unfold shade_percentage
    rw [if_neg (by rw [hzero]; exact lt_irrefl 0)]

/-- Witness for C9: the example one-edge graph traversed along its edge at
hour 9; the single traversed edge is fully shaded (shade length 10 = weight
10), so the hypothesis holds and the positive-length branch applies. -/
theorem shade_percentage_bounds_witness :
    0 < (pathStats exGraph 9 [(0, 0), (0, 1)]).total_path_length ∧
      0 ≤ shade_percentage (pathStats exGraph 9 [(0, 0), (0, 1)]) ∧
        shade_percentage (pathStats exGraph 9 [(0, 0), (0, 1)]) ≤ 100 ∧
        0 ≤ pyRound1 (shade_percentage (pathStats exGraph 9 [(0, 0), (0, 1)])) ∧
        pyRound1 (shade_percentage (pathStats exGraph 9 [(0, 0), (0, 1)])) ≤ 100 := by
  have hyp : ∀ pr ∈ consecutivePairs [((0 : ℚ), (0 : ℚ)), ((0 : ℚ), (1 : ℚ))],
      ∀ a, findEdge exGraph.edges pr.1 pr.2 = some a →
        0 ≤ effectiveShadeLength a 9 ∧ effectiveShadeLength a 9 ≤ baseWeight a := by
    intro pr hpr a ha
    fin_cases hpr
    have hae : exAttrsShaded = a := by
      have h := ha
      simp [findEdge, exGraph] at h
      exact h
    rw [← hae]
    constructor
    · simp [effectiveShadeLength, exAttrsShaded]
    · simp [effectiveShadeLength, baseWeight, exAttrsShaded]
  have hpos : 0 < (pathStats exGraph 9 [(0, 0), (0, 1)]).total_path_length := by
    norm_num [pathStats, consecutivePairs, statsStep, findEdge, exGraph, exAttrsShaded,
      baseWeight, effectiveShadeLength, effectiveIsShaded]
  exact ⟨hpos, (shade_percentage_bounds exGraph 9 [(0, 0), (0, 1)] hyp).1 hpos⟩

/-- Request body of `/shortest_path`. -/
structure ShortestPathRequest where
  start_lat : ℚ
  start_lng : ℚ
  end_lat : ℚ
  end_lng : ℚ
deriving DecidableEq

/-- Request body of `/shortest_path_shade` (defaults per app.py 116-122). -/
structure ShadeAwarePathRequest where
  start_lat : ℚ
  start_lng : ℚ
  end_lat : ℚ
  end_lng : ℚ
  time : ℕ := 9
  shade_penalty : ℚ := 1
deriving DecidableEq

/-- The structured errors the two routing endpoints return as error dicts. -/
inductive QueryError
  | graphNotLoaded
  | noNearestNodes
  | noPath
  | noEdges
  | shadeDataUnavailable
deriving DecidableEq

/-- The `shade_mode` field of a route response. -/
inductive ShadeMode
  | standard
  | night
  | daylight
deriving DecidableEq

/-- The dynamically typed `shade_penalty_applied` field: the standard
endpoint stores the number `1.0`, the night branch overwrites it with the
boolean `False`. -/
inductive PenaltyField
  | num (q : ℚ)
  | flag (b : Bool)
deriving DecidableEq

/-- The shade-statistics block the standard endpoint adds when hour-9 shade
data is available (app.py lines 244-254). -/
structure StdShadeStats where
  shaded_segments : ℕ
  shade_percentage : ℚ
  total_shade_length_m : ℚ
  original_distance_m : ℚ
  shade_aware_distance_m : ℚ
  shade_penalty_added_m : ℚ
deriving DecidableEq

/-- Response of the standard `/shortest_path` endpoint (app.py lines
233-254).  `path` is the `[[lat, lng], ...]` coordinate list. -/
structure StandardResult where
  path : List (ℚ × ℚ)
  start_node : ℚ × ℚ
  end_node : ℚ × ℚ
  total_distance_m : ℚ
  num_segments : ℕ
  shade_mode : ShadeMode
  analysis_time : ℕ
  stats : Option StdShadeStats
  shade_penalty_applied : Option PenaltyField
deriving DecidableEq

/-- Response of the daylight branch of `/shortest_path_shade` (app.py lines
372-386). -/
structure DaylightResult where
  path : List (ℚ × ℚ)
  start_node : ℚ × ℚ
  end_node : ℚ × ℚ
  original_distance_m : ℚ
  shade_aware_distance_m : ℚ
  shade_penalty_applied : ℚ
  analysis_time : ℕ
  shade_mode : ShadeMode := .daylight
  num_segments : ℕ
  shaded_segments : ℕ
  shade_percentage : ℚ
  total_shade_length_m : ℚ
  shade_penalty_added_m : ℚ
deriving DecidableEq

/-- A successful `/shortest_path_shade` response: the night branch returns
the (relabelled) standard result, the daylight branch its own record. -/
inductive ShadeResponse
  | nightR (r : StandardResult)
  | dayR (r : DaylightResult)
deriving DecidableEq

/-- `lonlat_to_latlng` (app.py lines 95-97): swap each `(lon, lat)` node to
`(lat, lng)` frontend order. -/
def lonlat_to_latlng (coords : List Node) : List (ℚ × ℚ) :=
  coords.map fun c => (c.2, c.1)

/-- The attribute reader a networkx weighted search uses for a given weight
key name. -/
abbrev WeightKey : Type := EdgeAttrs → ℚ

/-- Abstract oracle for `nx.shortest_path(G, s, t, weight=key)`; `none`
models the `NetworkXNoPath` exception. -/
abbrev SPFun : Type := Graph → WeightKey → Node → Node → Option (List Node)

/-- Abstract oracle for `nx.shortest_path_length(G, s, t, weight=key)`. -/
abbrev SPLenFun : Type := Graph → WeightKey → Node → Node → ℚ

/-- Embedding of the `/shortest_path` handler (app.py lines 185-261):
resolve both endpoints, run the weighted search, and assemble the result
with hour-9 shade statistics when the sampled edge carries hour-9 data. -/
def shortest_path (sp : SPFun) (splen : SPLenFun) (dist : DistFun)
    (gOpt : Option Graph) (req : ShortestPathRequest) :
    Except QueryError StandardResult :=
  match gOpt with
  | none => .error .graphNotLoaded
  | some G =>
    match find_nearest_node dist G req.start_lat req.start_lng,
          find_nearest_node dist G req.end_lat req.end_lng with
    | some start_node, some end_node =>
      match sp G nxGetWeight start_node end_node with
      | none => .error .noPath
      | some path_nodes =>
        let total_distance := splen G nxGetWeight start_node end_node
        let has_shade_data := graphHasHourData G 9
        let st := pathStats G 9 path_nodes
        .ok
          { path := lonlat_to_latlng path_nodes
            start_node := (start_node.2, start_node.1)
            end_node := (end_node.2, end_node.1)
            total_distance_m := total_distance
            num_segments := path_nodes.length - 1
            shade_mode := .standard
            analysis_time := 9
            stats :=
              if has_shade_data then
                some
                  { shaded_segments := st.shaded_segments
                    shade_percentage := pyRound1 (shade_percentage st)
                    total_shade_length_m := pyRound1 st.total_shade_length
                    original_distance_m := total_distance
                    shade_aware_distance_m := total_distance
                    shade_penalty_added_m := 0 }
              else none
            shade_penalty_applied := if has_shade_data then some (.num 1) else none }
    | _, _ => .error .noNearestNodes

/-- The standard request the night branch builds from a shade-aware request
(app.py lines 291-296): same four endpoint coordinates. -/
def toStdRequest (req : ShadeAwarePathRequest) : ShortestPathRequest :=
  { start_lat := req.start_lat
    start_lng := req.start_lng
    end_lat := req.end_lat
    end_lng := req.end_lng }

/-- The daylight result record assembled at app.py lines 372-386 from the
resolved endpoints and the search's path. -/
def mkDaylightResult (splen : SPLenFun) (G : Graph) (req : ShadeAwarePathRequest)
    (start_node end_node : Node) (path_nodes : List Node) : DaylightResult :=
  let temp_graph := shadeView G req.shade_penalty req.time
  let original_distance := splen G nxGetWeight start_node end_node
  let shade_aware_distance := splen temp_graph nxGetShadeAware start_node end_node
  let st := pathStats temp_graph req.time path_nodes
  { path := lonlat_to_latlng path_nodes
    start_node := (start_node.2, start_node.1)
    end_node := (end_node.2, end_node.1)
    original_distance_m := original_distance
    shade_aware_distance_m := shade_aware_distance
    shade_penalty_applied := req.shade_penalty
    analysis_time := req.time
    num_segments := path_nodes.length - 1
    shaded_segments := st.shaded_segments
    shade_percentage := pyRound1 (shade_percentage st)
    total_shade_length_m := pyRound1 st.total_shade_length
    shade_penalty_added_m := pyRound1 (shade_aware_distance - original_distance) }

/-- The daylight branch of the `/shortest_path_shade` handler (app.py lines
303-391): availability probe with hour-9 fallback, endpoint resolution,
the per-request shade view, and the search over `shade_aware_weight`. -/
def daylightResponse (sp : SPFun) (splen : SPLenFun) (dist : DistFun)
    (G : Graph) (req : ShadeAwarePathRequest) : Except QueryError ShadeResponse :=
  match G.edges.head? with
  | none => .error .noEdges
  | some sample =>
    if !(sample.2.2.shade_fraction req.time).isSome &&
        !(sample.2.2.shade_fraction 9).isSome then .error .shadeDataUnavailable
    else
      match find_nearest_node dist G req.start_lat req.start_lng,
            find_nearest_node dist G req.end_lat req.end_lng with
      | some start_node, some end_node =>
        match sp (shadeView G req.shade_penalty req.time) nxGetShadeAware
            start_node end_node with
        | none => .error .noPath
        | some path_nodes =>
          .ok (.dayR (mkDaylightResult splen G req start_node end_node path_nodes))
      | _, _ => .error .noNearestNodes

/-- Embedding of the `/shortest_path_shade` handler (app.py lines 280-391):
at night (hour ≤ 6 or ≥ 19) it delegates to the standard handler and only
relabels `shade_mode` and `shade_penalty_applied`; in daylight it runs the
shade-aware search. -/
def shortest_path_shade_aware (sp : SPFun) (splen : SPLenFun) (dist : DistFun)
    (gOpt : Option Graph) (req : ShadeAwarePathRequest) :
    Except QueryError ShadeResponse :=
  match gOpt with
  | none => .error .graphNotLoaded
  | some G =>
    if is_night_hour req.time then
      match shortest_path sp splen dist (some G) (toStdRequest req) with
      | .error e => .error e
      | .ok r =>
        .ok (.nightR
          { r with
            shade_mode := .night
            shade_penalty_applied := some (.flag false) })
    else
      daylightResponse sp splen dist G req

/-- Path field of a standard response, `none` on error. -/
def stdPathOf : Except QueryError StandardResult → Option (List (ℚ × ℚ))
  | .ok r => some r.path
  | .error _ => none

/-- Total distance of a standard response, `none` on error. -/
def stdDistanceOf : Except QueryError StandardResult → Option ℚ
  | .ok r => some r.total_distance_m
  | .error _ => none

/-- Path field of a shade-aware response, `none` on error. -/
def shadePathOf : Except QueryError ShadeResponse → Option (List (ℚ × ℚ))
  | .ok (.nightR r) => some r.path
  | .ok (.dayR r) => some r.path
  | .error _ => none

/-- The travelled distance a shade-aware response reports: the standard
total at night, the shade-aware distance in daylight; `none` on error. -/
def shadeDistanceOf : Except QueryError ShadeResponse → Option ℚ
  | .ok (.nightR r) => some r.total_distance_m
  | .ok (.dayR r) => some r.shade_aware_distance_m
  | .error _ => none

/-- C3: at night (hour ≤ 6 or hour ≥ 19) the shade-aware endpoint delegates
to the standard endpoint on the same four coordinates and only relabels
metadata fields, so for every graph, oracles and shade penalty it reports
exactly the standard query's path and total distance (and the same error on
failure). -/
theorem night_query_matches_standard (sp : SPFun) (splen : SPLenFun)
    (dist : DistFun) (gOpt : Option Graph) (req : ShadeAwarePathRequest)
    (hnight : req.time ≤ 6 ∨ 19 ≤ req.time) :
    shadePathOf (shortest_path_shade_aware sp splen dist gOpt req) =
      stdPathOf (shortest_path sp splen dist gOpt (toStdRequest req)) ∧
    shadeDistanceOf (shortest_path_shade_aware sp splen dist gOpt req) =
      stdDistanceOf (shortest_path sp splen dist gOpt (toStdRequest req)) := by
  have hb : is_night_hour req.time = true := by
    unfold is_night_hour
    rcases hnight with h | h
    · simp [h]
    · simp [h]
  cases gOpt with
  | none => exact ⟨rfl, rfl⟩
  | some G =>
    simp only [shortest_path_shade_aware, hb, if_true]
    rcases h : shortest_path sp splen dist (some G) (toStdRequest req) with e | r
    · exact ⟨rfl, rfl⟩
    · exact ⟨rfl, rfl⟩

/-- Weight of one traversed pair under a weight key; a missing edge
contributes `0`. -/
def edgeKeyWeight (g : Graph) (key : WeightKey) (pr : Node × Node) : ℚ :=
  match findEdge g.edges pr.1 pr.2 with
  | some attrs => key attrs
  | none => 0

/-- Total weight of a node path under a weight key: the sum the networkx
weighted search minimizes and reports for the path it returns. -/
def pathWeight (g : Graph) (key : WeightKey) (path : List Node) : ℚ :=
  ((consecutivePairs path).map (edgeKeyWeight g key)).sum

/-- A concrete search oracle used in witnesses: always proposes the
two-node path. -/
def spPair : SPFun := fun _ _ s t => some [s, t]

/-- The matching concrete length oracle: the weight of the two-node path. -/
def splenPair : SPLenFun := fun g key s t => pathWeight g key [s, t]

/-- The example night request between the example graph's two nodes. -/
def exNightReq : ShadeAwarePathRequest :=
  { start_lat := 0, start_lng := 0, end_lat := 1, end_lng := 0
    time := 20, shade_penalty := 3 }

/-- Witness for C3: a concrete hour-20 query on the example graph. -/
theorem night_query_matches_standard_witness :
    (exNightReq.time ≤ 6 ∨ 19 ≤ exNightReq.time) ∧
      (shadePathOf (shortest_path_shade_aware spPair splenPair exDist
          (some exGraph) exNightReq) =
        stdPathOf (shortest_path spPair splenPair exDist (some exGraph)
          (toStdRequest exNightReq)) ∧
      shadeDistanceOf (shortest_path_shade_aware spPair splenPair exDist
          (some exGraph) exNightReq) =
        stdDistanceOf (shortest_path spPair splenPair exDist (some exGraph)
          (toStdRequest exNightReq))) :=
  ⟨Or.inr (by decide),
    night_query_matches_standard spPair splenPair exDist (some exGraph) exNightReq
      (Or.inr (by decide))⟩

/-- The `/shortest_path` handler as a transformer of the shared graph
store: the Python handler only reads the global `G` (it never rebinds it
and never writes into its dicts), so the store it leaves behind is the
store it was given, paired with the pure response. -/
def shortest_path_handler (sp : SPFun) (splen : SPLenFun) (dist : DistFun)
    (gOpt : Option Graph) (req : ShortestPathRequest) :
    Option Graph × Except QueryError StandardResult :=
  (gOpt, shortest_path sp splen dist gOpt req)

/-- The `/shortest_path_shade` handler as a transformer of the shared graph
store: its only write, `edge_attrs['shade_aware_weight'] = ...`, targets
the per-request copy `temp_graph = G.copy()` (whose edge-attribute dicts
are fresh), modelled here by `shadeView`; the shared store is returned
unchanged. -/
def shortest_path_shade_handler (sp : SPFun) (splen : SPLenFun) (dist : DistFun)
    (gOpt : Option Graph) (req : ShadeAwarePathRequest) :
    Option Graph × Except QueryError ShadeResponse :=
  (gOpt, shortest_path_shade_aware sp splen dist gOpt req)

/-- C6: every routing query — standard or shade-aware, whatever its
parameters and outcome — leaves the shared stored graph unchanged, and the
shade-aware weights live only in the per-request view: that view keeps
every node, every edge endpoint, every stored edge attribute and the graph
metadata identical, adding only the `shade_aware_weight` entry. -/
theorem routing_queries_preserve_graph (sp : SPFun) (splen : SPLenFun)
    (dist : DistFun) (gOpt : Option Graph) (reqS : ShortestPathRequest)
    (reqA : ShadeAwarePathRequest) :
    (shortest_path_handler sp splen dist gOpt reqS).1 = gOpt ∧
    (shortest_path_shade_handler sp splen dist gOpt reqA).1 = gOpt ∧
    (∀ (G : Graph) (p : ℚ) (H : ℕ),
      (shadeView G p H).nodes = G.nodes ∧
      (shadeView G p H).meta = G.meta ∧
      ∀ i e, G.edges.get? i = some e →
        ∃ e', (shadeView G p H).edges.get? i = some e' ∧
          e'.1 = e.1 ∧ e'.2.1 = e.2.1 ∧
          e'.2.2.weight = e.2.2.weight ∧
          e'.2.2.shade_fraction = e.2.2.shade_fraction ∧
          e'.2.2.shade_length = e.2.2.shade_length ∧
          e'.2.2.shade_samples = e.2.2.shade_samples ∧
          e'.2.2.is_shaded = e.2.2.is_shaded ∧
          e'.2.2.shade_aware_weight =
            some (calculate_shade_aware_weight e.2.2 p true H)) := by
  refine ⟨rfl, rfl, ?_⟩
  intro G p H
  refine ⟨rfl, rfl, ?_⟩
  intro i e he
  refine ⟨(e.1, e.2.1, setShadeAware p H e.2.2), ?_, rfl, rfl, rfl, rfl, rfl, rfl, rfl, rfl⟩
  show (G.edges.map fun e => (e.1, e.2.1, setShadeAware p H e.2.2)).get? i = _
  rw [List.get?_map, he]
  rfl

/-- Witness for C6: both handlers on the example graph, and the view fact
instantiated at the example graph's first edge. -/
theorem routing_queries_preserve_graph_witness :
    (shortest_path_handler spPair splenPair exDist (some exGraph)
        (toStdRequest exNightReq)).1 = some exGraph ∧
    (shortest_path_shade_handler spPair splenPair exDist (some exGraph)
        exNightReq).1 = some exGraph ∧
    (∃ e', (shadeView exGraph 2 9).edges.get? 0 = some e' ∧
      e'.1 = ((0, 0) : Node) ∧ e'.2.1 = ((0, 1) : Node) ∧
      e'.2.2.weight = exAttrsShaded.weight ∧
      e'.2.2.shade_fraction = exAttrsShaded.shade_fraction ∧
      e'.2.2.shade_length = exAttrsShaded.shade_length ∧
      e'.2.2.shade_samples = exAttrsShaded.shade_samples ∧
      e'.2.2.is_shaded = exAttrsShaded.is_shaded ∧
      e'.2.2.shade_aware_weight =
        some (calculate_shade_aware_weight exAttrsShaded 2 true 9)) := by
  obtain ⟨h1, h2, h3⟩ :=
    routing_queries_preserve_graph spPair splenPair exDist (some exGraph)
      (toStdRequest exNightReq) exNightReq
  exact ⟨h1, h2, (h3 exGraph 2 9).2.2 0 ((0, 0), (0, 1), exAttrsShaded) rfl⟩

/-- Helper: the per-request view does not change which edge an undirected
lookup finds, it only rewrites that edge's attributes. -/
lemma findEdge_map_view (p : ℚ) (H : ℕ) (a b : Node) :
    ∀ es : List Edge,
      findEdge (es.map fun e => (e.1, e.2.1, setShadeAware p H e.2.2)) a b =
        (findEdge es a b).map (setShadeAware p H) := by
  intro es
  induction es with
  | nil => rfl
  | cons e es ih =>
    by_cases h : ((decide (e.1 = a) && decide (e.2.1 = b)) ||
        (decide (e.1 = b) && decide (e.2.1 = a))) = true
    · have hpos := @List.find?_cons_of_pos Edge
        (fun x => (decide (x.1 = a) && decide (x.2.1 = b)) ||
          (decide (x.1 = b) && decide (x.2.1 = a))) e es h
      have hpos2 := @List.find?_cons_of_pos Edge
        (fun x => (decide (x.1 = a) && decide (x.2.1 = b)) ||
          (decide (x.1 = b) && decide (x.2.1 = a)))
        (e.1, e.2.1, setShadeAware p H e.2.2)
        (es.map fun x => (x.1, x.2.1, setShadeAware p H x.2.2)) h
      simp only [findEdge, List.map_cons, hpos, hpos2]
      rfl
    · have hneg := @List.find?_cons_of_neg Edge
        (fun x => (decide (x.1 = a) && decide (x.2.1 = b)) ||
          (decide (x.1 = b) && decide (x.2.1 = a))) e es h
      have hneg2 := @List.find?_cons_of_neg Edge
        (fun x => (decide (x.1 = a) && decide (x.2.1 = b)) ||
          (decide (x.1 = b) && decide (x.2.1 = a)))
        (e.1, e.2.1, setShadeAware p H e.2.2)
        (es.map fun x => (x.1, x.2.1, setShadeAware p H x.2.2)) h
      simp only [findEdge, List.map_cons, hneg, hneg2]
      simpa only [findEdge] using ih

/-- Helper: a successful undirected lookup returns the attributes of some
edge of the list. -/
lemma findEdge_mem (es : List Edge) (a b : Node) (attrs : EdgeAttrs)
    (h : findEdge es a b = some attrs) : ∃ e ∈ es, e.2.2 = attrs := by
  unfold findEdge at h
  cases hf : es.find? fun e =>
      (decide (e.1 = a) && decide (e.2.1 = b)) ||
      (decide (e.1 = b) && decide (e.2.1 = a)) with
  | none => rw [hf] at h; exact absurd h (by simp)
  | some e =>
    rw [hf] at h
    simp at h
    exact ⟨e, List.mem_of_find?_eq_some hf, h⟩

/-- Helper: when every edge of the graph stores its weight and keeps its
effective shade length within `[0, weight]`, and the penalty is
non-negative, any node path costs at least as much under the view's
`shade_aware_weight` as under the base `weight`. -/
lemma pathWeight_mono (g : Graph) (p : ℚ) (H : ℕ) (path : List Node)
    (hwp : ∀ e ∈ g.edges, (e.2.2.weight).isSome = true)
    (hs : ∀ e ∈ g.edges, 0 ≤ effectiveShadeLength e.2.2 H ∧
      effectiveShadeLength e.2.2 H ≤ baseWeight e.2.2)
    (hp : 0 ≤ p) :
    pathWeight g nxGetWeight path ≤ pathWeight (shadeView g p H) nxGetShadeAware path := by
  unfold pathWeight
  apply List.sum_le_sum
  intro pr _
  unfold edgeKeyWeight
  rw [show (shadeView g p H).edges =
      g.edges.map (fun e => (e.1, e.2.1, setShadeAware p H e.2.2)) from rfl,
    findEdge_map_view]
  cases hfe : findEdge g.edges pr.1 pr.2 with
  | none => simp
  | some attrs =>
    simp only [Option.map_some]
    obtain ⟨e, hmem, hattr⟩ := findEdge_mem g.edges pr.1 pr.2 attrs hfe
    have hw := hwp e hmem
    have hsl := hs e hmem
    rw [hattr] at hw hsl
    have hbase : nxGetWeight attrs = baseWeight attrs := by
      unfold nxGetWeight baseWeight
      cases hww : attrs.weight with
      | none => rw [hww] at hw; exact absurd hw (by simp)
      | some w => rfl
    have hge := calc_weight_ge_base attrs p H hsl.2 hp
    rw [hbase]
    show baseWeight attrs ≤ nxGetShadeAware (setShadeAware p H attrs)
    unfold nxGetShadeAware setShadeAware
    simpa using hge

/-- Helper: inversion of a successful daylight response — it was built by
`mkDaylightResult` from some resolved endpoints and some path returned by
the shade-aware search on the view. -/
lemma daylightResponse_ok (sp : SPFun) (splen : SPLenFun) (dist : DistFun)
    (G : Graph) (req : ShadeAwarePathRequest) (r : DaylightResult)
    (hok : daylightResponse sp splen dist G req = .ok (.dayR r)) :
    ∃ s t P,
      sp (shadeView G req.shade_penalty req.time) nxGetShadeAware s t = some P ∧
      r = mkDaylightResult splen G req s t P := by
  unfold daylightResponse at hok
  split at hok
  · exact Except.noConfusion hok
  · split at hok
    · exact Except.noConfusion hok
    · split at hok
      · rename_i s t hs ht
        split at hok
        · exact Except.noConfusion hok
        · rename_i path_nodes hsp
          refine ⟨s, t, path_nodes, hsp, ?_⟩
          simp only [Except.ok.injEq, ShadeResponse.dayR.injEq] at hok
          exact hok.symm
      · exact Except.noConfusion hok

/-- C10: for a successful daylight shade-aware query on a graph whose every
edge stores its weight and has effective shade length within `[0, weight]`,
with non-negative shade penalty, and with search oracles that honour the
Dijkstra contract (the reported shade-aware length is the view-weight of
the returned path, and the reported base length is a lower bound for that
path's base weight), every edge's shade-aware weight is at least its base
weight, the reported `shade_aware_distance_m` is at least
`original_distance_m`, and the reported `shade_penalty_added_m` is
non-negative. -/
theorem daylight_distance_dominates (sp : SPFun) (splen : SPLenFun)
    (dist : DistFun) (G : Graph) (req : ShadeAwarePathRequest) (r : DaylightResult)
    (hok : shortest_path_shade_aware sp splen dist (some G) req = .ok (.dayR r))
    (hwp : ∀ e ∈ G.edges, (e.2.2.weight).isSome = true)
    (hs : ∀ e ∈ G.edges, 0 ≤ effectiveShadeLength e.2.2 req.time ∧
      effectiveShadeLength e.2.2 req.time ≤ baseWeight e.2.2)
    (hp : 0 ≤ req.shade_penalty)
    (hachieve : ∀ s t P,
      sp (shadeView G req.shade_penalty req.time) nxGetShadeAware s t = some P →
        splen (shadeView G req.shade_penalty req.time) nxGetShadeAware s t =
          pathWeight (shadeView G req.shade_penalty req.time) nxGetShadeAware P)
    (hlb : ∀ s t P,
      sp (shadeView G req.shade_penalty req.time) nxGetShadeAware s t = some P →
        splen G nxGetWeight s t ≤ pathWeight G nxGetWeight P) :
    (∀ e ∈ G.edges, baseWeight e.2.2 ≤
      calculate_shade_aware_weight e.2.2 req.shade_penalty true req.time) ∧
    r.original_distance_m ≤ r.shade_aware_distance_m ∧
    0 ≤ r.shade_penalty_added_m := by
  have hday : daylightResponse sp splen dist G req = .ok (.dayR r) := by
    by_cases hnight : is_night_hour req.time = true
    · exfalso
      rcases hstd : shortest_path sp splen dist (some G) (toStdRequest req) with e | r'
      · simp [shortest_path_shade_aware, hnight, hstd] at hok
      · simp [shortest_path_shade_aware, hnight, hstd] at hok
    · simpa [shortest_path_shade_aware, hnight] using hok
  obtain ⟨s, t, P, hsp, hr⟩ := daylightResponse_ok sp splen dist G req r hday
  have h1 := hachieve s t P hsp
  have h2 := hlb s t P hsp
  have h3 := pathWeight_mono G req.shade_penalty req.time P hwp hs hp
  refine ⟨fun e he => calc_weight_ge_base e.2.2 req.shade_penalty req.time (hs e he).2 hp,
    ?_, ?_⟩
  · rw [hr]
    show splen G nxGetWeight s t ≤
      splen (shadeView G req.shade_penalty req.time) nxGetShadeAware s t
    rw [h1]
    exact le_trans h2 h3
  · rw [hr]
    show 0 ≤ pyRound1
      (splen (shadeView G req.shade_penalty req.time) nxGetShadeAware s t -
        splen G nxGetWeight s t)
    apply pyRound1_nonneg
    rw [h1]
    linarith

/-- The example daylight request: hour 9, penalty 2, from near node (0,0)
to near node (0,1). -/
def exDayReq : ShadeAwarePathRequest :=
  { start_lat := 0, start_lng := 0, end_lat := 1, end_lng := 0
    time := 9, shade_penalty := 2 }

/-- A second concrete distance function for witnesses, built from
comparisons only (any `DistFun` works for the theorems): distance 0 to the
node with the query's coordinates, 1 to other nodes on the query's
meridian, 2 elsewhere. -/
def exDistFlat : DistFun := fun lon lat nlon nlat =>
  if nlon = lon then (if nlat = lat then 0 else 1) else 2

/-- The daylight result the example query produces on the example graph
with the pair oracles. -/
def exDayResult : DaylightResult :=
  mkDaylightResult splenPair exGraph exDayReq ((0 : ℚ), (0 : ℚ)) ((0 : ℚ), (1 : ℚ))
    [((0 : ℚ), (0 : ℚ)), ((0 : ℚ), (1 : ℚ))]

/-- Witness for C10: the example daylight query succeeds with the pair
oracles on the fully shaded one-edge graph, and the reported distances obey
the claimed inequalities. -/
theorem daylight_distance_dominates_witness :
    shortest_path_shade_aware spPair splenPair exDistFlat (some exGraph) exDayReq =
        .ok (.dayR exDayResult) ∧
      ((∀ e ∈ exGraph.edges, baseWeight e.2.2 ≤
          calculate_shade_aware_weight e.2.2 exDayReq.shade_penalty true exDayReq.time) ∧
        exDayResult.original_distance_m ≤ exDayResult.shade_aware_distance_m ∧
        0 ≤ exDayResult.shade_penalty_added_m) := by
  have hok : shortest_path_shade_aware spPair splenPair exDistFlat (some exGraph) exDayReq =
      .ok (.dayR exDayResult) := by rfl
  refine ⟨hok, daylight_distance_dominates spPair splenPair exDistFlat exGraph exDayReq
    exDayResult hok ?_ ?_ ?_ ?_ ?_⟩
  · intro e he
    fin_cases he
    rfl
  · intro e he
    fin_cases he
    constructor
    · decide
    · decide
  · norm_num [exDayReq]
  · intro s t P h
    have hP : [s, t] = P := by injection h
    rw [← hP]
    rfl
  · intro s t P h
    have hP : [s, t] = P := by injection h
    rw [← hP]
    exact le_of_eq rfl
